import Mathlib

/-!
Verification of the ffi-converter type-mapping and binding-synthesis core.

This file is a shallow embedding of the Go sources under `parser/` and
`generator/` of the ardanlabs/ffi-converter repository.  Go strings are
modelled as Lean `String` (with `List Char` internals where structural
recursion is needed; the identifiers handled by the tool are ASCII C
identifiers, for which Go's byte-indexed operations coincide with
character-indexed ones).  Go slices become Lean lists, Go structs become
Lean structures, and the regexp engine of the Go standard library - which
is external to this repository - is abstracted as a record of match
oracles.  Every definition mirrors the corresponding Go function and is
annotated with its source location.
-/

namespace FfiConverter

/-! ## Data model (parser/types.go) -/

/-- Embedding of `parser.CType` (parser/types.go lines 3-10). -/
structure CType where
  Name : String
  IsPointer : Bool := false
  IsConst : Bool := false
  IsUnsigned : Bool := false
  IsArray : Bool := false
  ArraySize : Nat := 0
deriving Repr, DecidableEq

/-- Embedding of `parser.StructField` (parser/types.go lines 12-15).
The Go field `Type` is rendered `Ty` because `Type` is a Lean keyword. -/
structure StructField where
  Name : String
  Ty : CType
deriving Repr, DecidableEq

/-- Embedding of `parser.Struct` (parser/types.go lines 17-22). -/
structure Struct where
  Name : String
  TypeDef : String := ""
  Fields : List StructField := []
  IsOpaque : Bool := false
deriving Repr, DecidableEq

/-- Embedding of `parser.FunctionParam` (parser/types.go lines 24-27).
The Go field `Type` is rendered `Ty` because `Type` is a Lean keyword. -/
structure FunctionParam where
  Name : String
  Ty : CType
deriving Repr, DecidableEq

/-- Embedding of `parser.Function` (parser/types.go lines 29-34). -/
structure Function where
  Name : String
  ReturnType : CType
  Params : List FunctionParam := []
  IsVariadic : Bool := false
deriving Repr, DecidableEq

/-- Embedding of `parser.TypeDef` (parser/types.go lines 36-39). -/
structure TypeDef where
  Name : String
  SourceType : CType
deriving Repr, DecidableEq

/-- Embedding of `parser.EnumValue` (parser/types.go lines 41-44).
An empty `Value` models the Go zero value (no explicit `= n` in the header). -/
structure EnumValue where
  Name : String
  Value : String := ""
deriving Repr, DecidableEq

/-- Embedding of `parser.Enum` (parser/types.go lines 46-49). -/
structure Enum where
  Name : String
  Values : List EnumValue
deriving Repr, DecidableEq

/-- Embedding of `parser.Header` (parser/types.go lines 51-56). -/
structure Header where
  Structs : List Struct := []
  Functions : List Function := []
  TypeDefs : List TypeDef := []
  Enums : List Enum := []
deriving Repr, DecidableEq

/-- The empty header, i.e. the Go value `&parser.Header{}`. -/
def emptyHeader : Header := {}

/-! ## String helpers shared by the embedding

These model the Go standard-library string operations used by the source
(`strings.FieldsFunc`, `strings.ToUpper`, `strings.ToLower`,
`strings.HasSuffix`), on `List Char` so that the structural recursion of
the proofs is direct.  ASCII is assumed, matching the C identifiers the
tool consumes. -/

/-- Character-wise lower-casing, modelling `strings.ToLower` on ASCII. -/
def lowerChars (cs : List Char) : List Char := cs.map Char.toLower

/-- Character-wise upper-casing, modelling `strings.ToUpper` on ASCII. -/
def upperChars (cs : List Char) : List Char := cs.map Char.toUpper

/-- Model of `strings.HasSuffix s suf`: true when `suf` is a suffix of `s`. -/
def hasSuffixL (s suf : List Char) : Bool :=
  if suf.length ≤ s.length then s.drop (s.length - suf.length) == suf else false

/-- Model of `strings.FieldsFunc(name, r == '_')` (generator.go lines
450-452): the maximal runs of non-underscore characters, empties dropped. -/
def fieldsFuncU (cs : List Char) : List (List Char) :=
  (cs.splitOn '_').filter (fun p => p ≠ [])

/-- The Go whitespace characters relevant to header text. -/
def isGoSpace (c : Char) : Bool := c == ' ' || c == '\t' || c == '\n' || c == '\r'

/-- Fuel-driven splitter behind `goSplit`: scan left to right, cutting at
each non-overlapping occurrence of the (non-empty) pattern.  The fuel is
the input length, which bounds the number of scan steps. -/
def splitOnFuel (pat : List Char) : Nat → List Char → List Char → List (List Char)
  | _, acc, [] => [acc.reverse]
  | 0, acc, rest => [acc.reverse ++ rest]
  | fuel + 1, acc, c :: rest =>
    if pat.isPrefixOf (c :: rest) then
      acc.reverse :: splitOnFuel pat fuel [] (rest.drop (pat.length - 1))
    else splitOnFuel pat fuel (c :: acc) rest

/-- Model of `strings.Split s sep` for the non-empty separators the
parser uses. -/
def goSplit (s sep : String) : List String :=
  if sep.data = [] then [s]
  else (splitOnFuel sep.data s.data.length [] s.data).map String.mk

/-- Model of `strings.Contains s pat` for non-empty `pat`: splitting on
the pattern yields more than one piece exactly when it occurs. -/
def containsSub (s pat : String) : Bool := (goSplit s pat).length != 1

/-- Fuel-driven replacer behind `goReplaceAll`. -/
def replaceFuel (pat rep : List Char) : Nat → List Char → List Char
  | _, [] => []
  | 0, rest => rest
  | fuel + 1, c :: rest =>
    if pat.isPrefixOf (c :: rest) then
      rep ++ replaceFuel pat rep fuel (rest.drop (pat.length - 1))
    else c :: replaceFuel pat rep fuel rest

/-- Model of `strings.ReplaceAll s pat rep` for non-empty `pat`:
non-overlapping occurrences replaced left to right. -/
def goReplaceAll (s pat rep : String) : String :=
  if pat.data = [] then s
  else String.mk (replaceFuel pat.data rep.data s.data.length s.data)

/-- Model of `strings.TrimSpace`: strip leading and trailing whitespace. -/
def goTrim (s : String) : String :=
  String.mk (((s.data.dropWhile isGoSpace).reverse.dropWhile isGoSpace).reverse)

/-- Model of `strings.Fields`: split on whitespace, dropping empties
(whitespace characters are first canonicalized to a single space). -/
def goFields (s : String) : List String :=
  (((s.data.map fun c => if isGoSpace c then ' ' else c).splitOn ' ').filter
    (fun t => t ≠ [])).map String.mk

/-- Model of `strings.Join xs sep`. -/
def goJoin (sep : String) : List String → String
  | [] => ""
  | [x] => x
  | x :: y :: rest => x ++ sep ++ goJoin sep (y :: rest)

/-- Model of `strings.HasPrefix s "*"` on the name tokens. -/
def startsStar (s : String) : Bool := ['*'].isPrefixOf s.data

/-- Model of `strings.TrimPrefix s "*"`: drop one leading star. -/
def dropStar (s : String) : String :=
  if startsStar s then String.mk (s.data.drop 1) else s

/-! ## Naming rule (generator/generator.go lines 445-489) -/

/-- The fixed acronym table of `toGoName` (generator.go line 460),
each entry already lower-case as in the source literal. -/
def acronymsList : List (List Char) :=
  [['i', 'd'], ['u', 'r', 'l'], ['a', 'p', 'i'], ['h', 't', 't', 'p'],
   ['j', 's', 'o', 'n'], ['x', 'm', 'l'], ['s', 'q', 'l'], ['i', 'o'],
   ['i', 'p'], ['t', 'c', 'p'], ['u', 'd', 'p']]

/-- The acronym test of the loop at generator.go lines 460-465:
`strings.ToLower(part) == acronym` for some table entry. -/
def isAcronymSeg (part : List Char) : Bool :=
  acronymsList.contains (lowerChars part)

/-- One iteration of the `for _, part := range parts` loop body of
`toGoName` (generator.go lines 455-472) acting on the builder contents
`acc`.  The source writes the upper-cased first byte, then for longer
segments runs the acronym loop - whose match RESETS the whole builder to
the upper-cased segment - and finally appends the lower-cased remainder
unless the builder already ends with the upper-cased segment. -/
def processPart (acc : List Char) (part : List Char) : List Char :=
  match part with
  | [] => acc
  | c :: rest =>
    let acc1 := acc ++ [c.toUpper]
    if rest.isEmpty then acc1
    else
      let low := lowerChars rest
      let acc2 := if isAcronymSeg part then upperChars part else acc1
      if acc2.length > 0 && !hasSuffixL acc2 (upperChars part) then acc2 ++ low
      else acc2

/-- Embedding of `toGoName` (generator.go lines 445-475) on `List Char`. -/
def toGoNameChars (name : List Char) : List Char :=
  if name = [] then [] else (fieldsFuncU name).foldl processPart []

/-- Embedding of `toGoName` (generator.go lines 445-475). -/
def toGoName (name : String) : String := String.mk (toGoNameChars name.data)

/-- Embedding of `toLowerCamel` (generator.go lines 477-485):
`toGoName` with the first rune lower-cased. -/
def toLowerCamel (name : String) : String :=
  match toGoNameChars name.data with
  | [] => ""
  | c :: rest => String.mk (c.toLower :: rest)

/-- Embedding of `toGoEnumName` (generator.go lines 487-489): the enum
name argument is ignored, the member name goes through `toGoName`. -/
def toGoEnumName (_enumName valueName : String) : String := toGoName valueName

/-! ## Type mapping (generator/generator.go lines 307-443) -/

/-- Embedding of `cTypeToGoType` (generator.go lines 307-381).  The Go
switch becomes an if-chain; the `for ... range` searches over the known
structs and enums become `List.find?` on the same predicates.  Note that
the `default` arm returns `toGoName(ct.Name)` on all three of its paths
(struct hit, enum hit, no hit) - there is no error channel. -/
def cTypeToGoType (ct : CType) (header : Header) : String :=
  if ct.IsPointer && (ct.Name == "char" || ct.Name == "char *") then "string"
  else if ct.IsPointer then
    match header.Structs.find? (fun s => s.Name == ct.Name && !s.IsOpaque) with
    | some _ => "*" ++ toGoName ct.Name
    | none => "uintptr"
  else if ct.Name == "void" then ""
  else if ct.Name == "bool" then "bool"
  else if ct.Name == "char" then (if ct.IsUnsigned then "uint8" else "int8")
  else if ct.Name == "short" then (if ct.IsUnsigned then "uint16" else "int16")
  else if ct.Name == "int" then (if ct.IsUnsigned then "uint32" else "int32")
  else if ct.Name == "long" then (if ct.IsUnsigned then "uint64" else "int64")
  else if ct.Name == "int8_t" then "int8"
  else if ct.Name == "uint8_t" then "uint8"
  else if ct.Name == "int16_t" then "int16"
  else if ct.Name == "uint16_t" then "uint16"
  else if ct.Name == "int32_t" then "int32"
  else if ct.Name == "uint32_t" then "uint32"
  else if ct.Name == "int64_t" then "int64"
  else if ct.Name == "uint64_t" then "uint64"
  else if ct.Name == "size_t" then "uint64"
  else if ct.Name == "float" then "float32"
  else if ct.Name == "double" then "float64"
  else
    match header.Structs.find? (fun s => s.Name == ct.Name) with
    | some _ => toGoName ct.Name
    | none =>
      match header.Enums.find? (fun e => e.Name == ct.Name) with
      | some _ => toGoName ct.Name
      | none => toGoName ct.Name

/-- Embedding of `cTypeToFFIType` (generator.go lines 383-443).  Every
pointer maps to `&ffi.TypePointer`; the `default` arm searches the known
non-opaque structs and otherwise falls back to `&ffi.TypePointer` - again
with no error channel. -/
def cTypeToFFIType (ct : CType) (header : Header) : String :=
  if ct.IsPointer then "&ffi.TypePointer"
  else if ct.Name == "void" then "&ffi.TypeVoid"
  else if ct.Name == "bool" then "&ffi.TypeUint8"
  else if ct.Name == "char" then
    (if ct.IsUnsigned then "&ffi.TypeUint8" else "&ffi.TypeSint8")
  else if ct.Name == "short" then
    (if ct.IsUnsigned then "&ffi.TypeUint16" else "&ffi.TypeSint16")
  else if ct.Name == "int" then
    (if ct.IsUnsigned then "&ffi.TypeUint32" else "&ffi.TypeSint32")
  else if ct.Name == "long" then
    (if ct.IsUnsigned then "&ffi.TypeUint64" else "&ffi.TypeSint64")
  else if ct.Name == "int8_t" then "&ffi.TypeSint8"
  else if ct.Name == "uint8_t" then "&ffi.TypeUint8"
  else if ct.Name == "int16_t" then "&ffi.TypeSint16"
  else if ct.Name == "uint16_t" then "&ffi.TypeUint16"
  else if ct.Name == "int32_t" then "&ffi.TypeSint32"
  else if ct.Name == "uint32_t" then "&ffi.TypeUint32"
  else if ct.Name == "int64_t" then "&ffi.TypeSint64"
  else if ct.Name == "uint64_t" then "&ffi.TypeUint64"
  else if ct.Name == "size_t" then "&ffi.TypeUint64"
  else if ct.Name == "float" then "&ffi.TypeFloat"
  else if ct.Name == "double" then "&ffi.TypeDouble"
  else
    match header.Structs.find? (fun s => s.Name == ct.Name && !s.IsOpaque) with
    | some _ => "&FFIType" ++ toGoName ct.Name
    | none => "&ffi.TypePointer"

/-- The base names handled by the fixed primitive switch of
`cTypeToGoType` and `cTypeToFFIType` (generator.go lines 321-367 and
388-434). -/
def primitiveNames : List String :=
  ["void", "bool", "char", "short", "int", "long",
   "int8_t", "uint8_t", "int16_t", "uint16_t", "int32_t", "uint32_t",
   "int64_t", "uint64_t", "size_t", "float", "double"]

/-! ## Type classifiers (generator/generator.go lines 491-540) -/

/-- Embedding of `isStringType` (generator.go lines 491-493). -/
def isStringType (ct : CType) : Bool :=
  ct.IsPointer && ct.Name == "char"

/-- Embedding of `isStringReturnType` (generator.go lines 495-497). -/
def isStringReturnType (ct : CType) : Bool :=
  ct.IsPointer && ct.Name == "char"

/-- Embedding of `needsFFIArg` (generator.go lines 499-516): true exactly
for the non-pointer narrow integral and boolean base names (below the
machine word), which are received through a word-sized `ffi.Arg` slot. -/
def needsFFIArg (ct : CType) : Bool :=
  if ct.IsPointer || ct.Name == "void" then false
  else if ct.Name == "int8_t" || ct.Name == "uint8_t" || ct.Name == "char"
      || ct.Name == "bool" then true
  else if ct.Name == "int16_t" || ct.Name == "uint16_t" || ct.Name == "short" then true
  else if ct.Name == "int32_t" || ct.Name == "uint32_t" || ct.Name == "int" then true
  else if ct.Name == "float" || ct.Name == "double" then false
  else false

/-- Embedding of `isOpaqueHandle` (generator.go lines 518-528). -/
def isOpaqueHandle (ct : CType) (header : Header) : Bool :=
  if !ct.IsPointer then false
  else (header.Structs.find? (fun s => s.Name == ct.Name && s.IsOpaque)).isSome

/-- Embedding of `isStructByValue` (generator.go lines 530-540). -/
def isStructByValue (ct : CType) (header : Header) : Bool :=
  if ct.IsPointer then false
  else (header.Structs.find? (fun s => s.Name == ct.Name && !s.IsOpaque)).isSome

/-! ## Function binding synthesis (generator/generator.go lines 156-305)

The wrapper generator is embedded at the level of the emitted Go text.
Each `fmt.Fprintf` of the source contributes the same characters here;
brace characters of the emitted Go appear as their escapes. -/

/-- The parameter-name defaulting used throughout `generateFunctionWrapper`
(generator.go lines 219-222, 238-241, 270-273): `toLowerCamel` of the C
name, or `"arg"` when that is empty. -/
def paramNameOf (p : FunctionParam) : String :=
  let n := toLowerCamel p.Name
  if n == "" then "arg" else n

/-- The `unix.BytePtrFromString` conversion lines emitted for the string
parameters (generator.go lines 236-244): one line per parameter whose
type `isStringType`, converting the text value to a null-terminated byte
buffer before the call. -/
def stringConvLines (fn : Function) : List String :=
  fn.Params.filterMap fun p =>
    if isStringType p.Ty then
      some ("\t" ++ paramNameOf p ++ "Ptr, _ := unix.BytePtrFromString("
            ++ paramNameOf p ++ ")\n")
    else none

/-- The result-slot declaration (generator.go lines 246-256): a word-sized
`ffi.Arg` for narrow returns, a raw `*byte` for string returns, and a
directly typed slot otherwise (the source's opaque-handle branch and its
final branch emit the same text; both are kept). -/
def resultDecl (fn : Function) (header : Header) : String :=
  if fn.ReturnType.Name != "void" then
    if needsFFIArg fn.ReturnType then "\tvar result ffi.Arg\n"
    else if isStringReturnType fn.ReturnType then "\tvar resultPtr *byte\n"
    else if isOpaqueHandle fn.ReturnType header then
      "\tvar result " ++ cTypeToGoType fn.ReturnType header ++ "\n"
    else "\tvar result " ++ cTypeToGoType fn.ReturnType header ++ "\n"
  else ""

/-- The first `Call` argument (generator.go lines 258-267): the address of
the result slot, or `nil` for a void return. -/
def resultCallArg (fn : Function) : String :=
  if fn.ReturnType.Name != "void" then
    if isStringReturnType fn.ReturnType then "unsafe.Pointer(&resultPtr)"
    else "unsafe.Pointer(&result)"
  else "nil"

/-- The per-parameter `Call` argument (generator.go lines 269-281): the
address of the byte-buffer pointer for strings, the direct address of the
value for struct-by-value parameters, and the address of the local
holding the value for everything else. -/
def callArgFor (header : Header) (p : FunctionParam) : String :=
  if isStringType p.Ty then "unsafe.Pointer(&" ++ paramNameOf p ++ "Ptr)"
  else if isStructByValue p.Ty header then "&" ++ paramNameOf p
  else "unsafe.Pointer(&" ++ paramNameOf p ++ ")"

/-- The full `Call` argument list (generator.go lines 258-281): result
slot first, then one entry per parameter in order. -/
def callAllArgs (fn : Function) (header : Header) : List String :=
  resultCallArg fn :: fn.Params.map (callArgFor header)

/-- The statements after the `Call` (generator.go lines 285-300): narrow
returns are read back from the `ffi.Arg` slot through `.Bool()` or a
truncating Go conversion, string returns go through the nil-sentinel
check, and everything else is returned directly. -/
def returnStmt (fn : Function) (header : Header) : String :=
  if fn.ReturnType.Name != "void" then
    if needsFFIArg fn.ReturnType then
      if fn.ReturnType.Name == "bool"
          || (fn.ReturnType.Name == "uint8" && !fn.ReturnType.IsPointer) then
        "\treturn result.Bool()\n"
      else "\treturn " ++ cTypeToGoType fn.ReturnType header ++ "(result)\n"
    else if isStringReturnType fn.ReturnType then
      "\tif resultPtr == nil \x7b\n\t\treturn \"\"\n\t\x7d\n\treturn unix.BytePtrToString(resultPtr)\n"
    else "\treturn result\n"
  else ""

/-- Embedding of `generateFunctionWrapper` (generator.go lines 210-305):
the emitted Go text of one wrapper, assembled in the same order as the
source's writes.  The `IsVariadic` flag of the declaration is never
consulted. -/
def generateFunctionWrapper (fn : Function) (header : Header) : String :=
  let goFuncName := toGoName fn.Name
  let funcVarName := toLowerCamel fn.Name ++ "Func"
  let params := fn.Params.map fun p =>
    paramNameOf p ++ " " ++ cTypeToGoType p.Ty header
  let paramsStr := goJoin ", " params
  let retGoType := cTypeToGoType fn.ReturnType header
  let sigLine :=
    if fn.ReturnType.Name != "void" then
      "func " ++ goFuncName ++ "(" ++ paramsStr ++ ") " ++ retGoType ++ " \x7b\n"
    else "func " ++ goFuncName ++ "(" ++ paramsStr ++ ") \x7b\n"
  let callLine :=
    "\t" ++ funcVarName ++ ".Call(" ++ goJoin ", " (callAllArgs fn header) ++ ")\n"
  sigLine ++ goJoin "" (stringConvLines fn) ++ resultDecl fn header
    ++ callLine ++ returnStmt fn header ++ "\x7d\n"

/-- The foreign descriptors passed to `lib.Prep` for one function
(generator.go lines 179-196): the return descriptor first, then one
descriptor per parameter; the zero-parameter branch of the source passes
the return descriptor alone. -/
def prepArgs (fn : Function) (header : Header) : List String :=
  let retFFI := cTypeToFFIType fn.ReturnType header
  let argFFIs := fn.Params.map fun p => cTypeToFFIType p.Ty header
  if argFFIs.isEmpty then [retFFI] else retFFI :: argFFIs

/-! ## Enum emission (generator/generator.go lines 138-151) and the
meaning of the emitted Go const block -/

/-- One spec line of the emitted Go `const (...)` block for an enum. -/
inductive ConstEntry where
  | explicitVal (name typeName value : String)
  | iotaFirst (name typeName : String)
  | bare (name : String)
deriving Repr, DecidableEq

/-- Embedding of the enum loop of `generateTypes` (generator.go lines
138-151): a member with an explicit value gets `Name Type = value`, a
first member without one gets `Name Type = iota`, and every later member
without one gets the bare `Name`. -/
def enumConstEntries (e : Enum) : List ConstEntry :=
  e.Values.enum.map fun iv =>
    if iv.2.Value != "" then
      ConstEntry.explicitVal (toGoEnumName e.Name iv.2.Name) (toGoName e.Name) iv.2.Value
    else if iv.1 == 0 then
      ConstEntry.iotaFirst (toGoEnumName e.Name iv.2.Name) (toGoName e.Name)
    else ConstEntry.bare (toGoEnumName e.Name iv.2.Name)

/-- The right-hand-side expression a Go const spec carries forward. -/
inductive ConstRhs where
  | iotaRef
  | lit (v : Int)
deriving Repr, DecidableEq

/-- Decimal digits of a character list read as a natural number. -/
def decDigits (cs : List Char) : Nat :=
  cs.foldl (fun acc c => acc * 10 + (c.toNat - 48)) 0

/-- Numeric reading of an emitted value literal: the enum values this
tool copies from the header into the Go const block are (possibly
negative) decimal literals, and this is Go's reading of such a literal. -/
def parseLit (s : String) : Int :=
  match s.data with
  | '-' :: rest => - Int.ofNat (decDigits rest)
  | cs => Int.ofNat (decDigits cs)

/-- Evaluation of one carried-forward expression at a given iota. -/
def evalRhs : ConstRhs → Nat → Int
  | ConstRhs.iotaRef, i => Int.ofNat i
  | ConstRhs.lit v, _ => v

/-- Go semantics of a `const (...)` block (Go spec, constant
declarations): `iota` is the spec line index, and a spec without an
expression repeats the previous spec's expression - re-evaluated at the
current `iota`, so a repeated literal stays the same literal. -/
def evalEntries : List ConstEntry → ConstRhs → Nat → List (String × Int)
  | [], _, _ => []
  | ConstEntry.explicitVal n _ v :: rest, _, i =>
    (n, parseLit v) :: evalEntries rest (ConstRhs.lit (parseLit v)) (i + 1)
  | ConstEntry.iotaFirst n _ :: rest, _, i =>
    (n, Int.ofNat i) :: evalEntries rest ConstRhs.iotaRef (i + 1)
  | ConstEntry.bare n :: rest, prev, i =>
    (n, evalRhs prev i) :: evalEntries rest prev (i + 1)

/-- The constant values the emitted Go const block denotes. -/
def evalConstBlock (entries : List ConstEntry) : List (String × Int) :=
  evalEntries entries (ConstRhs.lit 0) 0

/-- C enum-member resolution as the claim states it: an explicit value is
taken as written, an unset member continues the previous value + 1, and
an unset first member starts at 0. -/
def resolveCEnum (values : List EnumValue) : List (String × Int) :=
  let rec go : Int → List EnumValue → List (String × Int)
    | _, [] => []
    | prev, v :: rest =>
      let val := if v.Value != "" then parseLit v.Value else prev + 1
      (v.Name, val) :: go val rest
  go (-1) values

/-! ## Runtime meaning of the emitted narrow-return and string-return code -/

/-- Go semantics of the emitted `uint8(result)` conversion (Go spec,
conversions between integer types): the word-sized slot value truncated
to its low 8 bits. -/
def goConvUint8 (slot : Nat) : Nat := slot % 2 ^ 8

/-- Modelled from the spec: `ffi.Arg.Bool` of the external
jupiterrider/ffi dynamic-call library, called by the emitted
`result.Bool()`; the library is not part of this repository, and the spec
states that a boolean result is derived by truncating the word-sized slot
to its lowest 8 bits and testing non-zero. -/
def ffiArgBool (slot : Nat) : Bool := slot % 2 ^ 8 != 0

/-- Runtime meaning of the emitted string-return epilogue (generator.go
lines 292-296): `resultPtr == nil` is the null-sentinel test on the
received raw address, and `unix.BytePtrToString` dereferences the address
otherwise (abstracted as `deref`). -/
def stringReturnSem (addr : Nat) (deref : Nat → String) : String :=
  if addr == 0 then "" else deref addr

/-! ## Parser (parser/parser.go)

The string manipulation of the parser is embedded directly; the Go
standard-library regexp engine (external to this repository) is
abstracted as a record of match oracles, one per compiled pattern, each
returning what `FindAllStringSubmatch` would: a list of match groups. -/

/-- Embedding of `parseCType` (parser.go lines 132-158): peel the
`const`, `unsigned` and `*` markers in that order, each by
substring test plus replace-all, and keep what remains as the base name. -/
def parseCType (typeStr : String) : CType :=
  let t0 := goTrim typeStr
  let c : Bool × String :=
    if containsSub t0 "const" then (true, goTrim (goReplaceAll t0 "const" ""))
    else (false, t0)
  let u : Bool × String :=
    if containsSub c.2 "unsigned" then (true, goTrim (goReplaceAll c.2 "unsigned" ""))
    else (false, c.2)
  let p : Bool × String :=
    if hasSuffixL u.2.data ['*'] || containsSub u.2 "* " then
      (true, goTrim (goReplaceAll u.2 "*" ""))
    else (false, u.2)
  { Name := goTrim p.2, IsPointer := p.1, IsConst := c.1, IsUnsigned := u.1 }

/-- The named-parameter branch of `parseParams` (parser.go lines 244-266):
fewer than two tokens make an unnamed parameter of the whole text,
otherwise the last token is the name (one leading `*` moving onto the
type) and the remaining tokens joined are the type. -/
def parseOneParam (part : String) : FunctionParam :=
  let tokens := goFields part
  if tokens.length < 2 then { Name := "", Ty := parseCType part }
  else
    let lastTok := tokens.getLastD ""
    let typeParts := tokens.dropLast
    let typeParts := if startsStar lastTok then typeParts ++ ["*"] else typeParts
    { Name := dropStar lastTok, Ty := parseCType (goJoin " " typeParts) }

/-- Embedding of `parseParams` (parser.go lines 228-270): split on commas;
an empty piece is skipped, a literal `...` piece only sets the variadic
flag and is dropped, and every other piece becomes a parameter. -/
def parseParams (paramsStr : String) : List FunctionParam × Bool :=
  (goSplit paramsStr ",").foldl
    (fun acc part0 =>
      let part := goTrim part0
      if part == "" then acc
      else if part == "..." then (acc.1, true)
      else (acc.1 ++ [parseOneParam part], acc.2))
    ([], false)

/-- The per-match body of `parseFunctions` (parser.go lines 204-224):
build one `Function` from the regex groups, with a `void` or empty
parameter list collapsing to zero parameters. -/
def mkFunction (name retType paramsStr : String) : Function :=
  let ps := goTrim paramsStr
  let base : Function :=
    { Name := goTrim name, ReturnType := parseCType (goTrim retType),
      Params := [], IsVariadic := false }
  if ps == "void" || ps == "" then base
  else
    let pv := parseParams ps
    { base with Params := pv.1, IsVariadic := pv.2 }

/-- Embedding of `parseStructFields` (parser.go lines 97-130). -/
def parseStructFields (body : String) : List StructField :=
  (goSplit body ";").filterMap fun line0 =>
    let line := goTrim line0
    if line == "" then none
    else
      let parts := goFields line
      if parts.length < 2 then none
      else
        let lastTok := parts.getLastD ""
        let typeParts := parts.dropLast
        let typeParts := if startsStar lastTok then typeParts ++ ["*"] else typeParts
        some { Name := dropStar lastTok, Ty := parseCType (goJoin " " typeParts) }

/-- Embedding of `parseEnumValues` (parser.go lines 179-199): split on
commas; a piece with an `=` splits at its first occurrence into trimmed
name and value, any other non-empty piece is a member without a value. -/
def parseEnumValues (body : String) : List EnumValue :=
  (goSplit body ",").filterMap fun part0 =>
    let part := goTrim part0
    if part == "" then none
    else
      match goSplit part "=" with
      | [] => none
      | [_] => some { Name := part, Value := "" }
      | n :: rest => some { Name := goTrim n, Value := goTrim (goJoin "=" rest) }

/-- The compiled patterns of parser.go lines 8-15, abstracted: each field
returns what the Go regexp engine's `ReplaceAllString` or
`FindAllStringSubmatch` would return on the given text. -/
structure RegexFns where
  stripBlockComments : String → String
  stripLineComments : String → String
  collapseSpaces : String → String
  typedefMatches : String → List (List String)
  opaqueMatches : String → List (List String)
  structMatches : String → List (List String)
  enumMatches : String → List (List String)
  funcMatches : String → List (List String)

/-- Embedding of `removeComments` (parser.go lines 31-36). -/
def removeComments (rx : RegexFns) (s : String) : String :=
  rx.stripLineComments (rx.stripBlockComments s)

/-- Embedding of `normalizeWhitespace` (parser.go lines 38-44). -/
def normalizeWhitespace (rx : RegexFns) (s : String) : String :=
  rx.collapseSpaces (goReplaceAll (goReplaceAll s "\r\n" "\n") "\r" "\n")

/-- Embedding of `parseTypeDefs` (parser.go lines 46-76): the typedef
matches extend `TypeDefs`, the opaque-handle matches extend `Structs`;
short match rows are skipped as in the source's `len(m) < 3` guards. -/
def parseTypeDefsH (rx : RegexFns) (content : String) (h : Header) : Header :=
  let tds := (rx.typedefMatches content).filterMap fun m =>
    if m.length < 3 then none
    else some { Name := goTrim (m.getD 2 ""),
                SourceType := parseCType (goTrim (m.getD 1 "")) }
  let ops := (rx.opaqueMatches content).filterMap fun m =>
    if m.length < 3 then none
    else some ({ Name := goTrim (m.getD 2 ""), IsOpaque := true } : Struct)
  { h with TypeDefs := h.TypeDefs ++ tds, Structs := h.Structs ++ ops }

/-- Embedding of `parseStructs` (parser.go lines 78-95). -/
def parseStructsH (rx : RegexFns) (content : String) (h : Header) : Header :=
  let ss := (rx.structMatches content).filterMap fun m =>
    if m.length < 3 then none
    else some ({ Name := goTrim (m.getD 2 ""),
                 Fields := parseStructFields (goTrim (m.getD 1 "")) } : Struct)
  { h with Structs := h.Structs ++ ss }

/-- Embedding of `parseEnums` (parser.go lines 160-177). -/
def parseEnumsH (rx : RegexFns) (content : String) (h : Header) : Header :=
  let es := (rx.enumMatches content).filterMap fun m =>
    if m.length < 3 then none
    else some ({ Name := goTrim (m.getD 2 ""),
                 Values := parseEnumValues (goTrim (m.getD 1 "")) } : Enum)
  { h with Enums := h.Enums ++ es }

/-- Embedding of `parseFunctions` (parser.go lines 201-226). -/
def parseFunctionsH (rx : RegexFns) (content : String) (h : Header) : Header :=
  let fns := (rx.funcMatches content).filterMap fun m =>
    if m.length < 4 then none
    else some (mkFunction (m.getD 2 "") (m.getD 1 "") (m.getD 3 ""))
  { h with Functions := h.Functions ++ fns }

/-- Embedding of `Parse` (parser.go lines 17-29): strip comments,
normalize whitespace, run the four extraction passes over a fresh header,
and return it together with the error value - which is the Go literal
`nil` on the one and only return path. -/
def Parse (rx : RegexFns) (content : String) : Header × Option String :=
  let c := normalizeWhitespace rx (removeComments rx content)
  let h0 : Header := {}
  let h1 := parseTypeDefsH rx c h0
  let h2 := parseStructsH rx c h1
  let h3 := parseEnumsH rx c h2
  let h4 := parseFunctionsH rx c h3
  (h4, none)

/-! ## Reference formulations of the naming rule

Two further definitions of the snake-case naming rule, used to compare
`toGoName` against the specification's words.  They are deliberately NOT
translated from the source: `claimGoNameChars` follows the claim text
verbatim, and `amendedGoNameChars` follows the amended claim text, built
around the last acronym segment rather than a left-to-right builder. -/

/-- The naming rule as the claim words it: split on underscore, capitalize
the first letter of each segment and lowercase the rest, emit an acronym
segment fully upper-cased, and preserve all segments. -/
def claimGoNameChars (name : List Char) : List Char :=
  (fieldsFuncU name).foldl
    (fun acc part =>
      if isAcronymSeg part then acc ++ upperChars part
      else
        match part with
        | [] => acc
        | c :: rest => acc ++ (c.toUpper :: lowerChars rest))
    []

/-- String form of `claimGoNameChars`. -/
def claimGoName (s : String) : String := String.mk (claimGoNameChars s.data)

/-- Capitalization of one non-acronym segment onto an accumulated prefix,
as the amended claim words it: the first letter upper-cased is appended,
and the lower-cased remainder follows unless the output now ends with the
whole segment upper-cased. -/
def capSeg (acc : List Char) (part : List Char) : List Char :=
  match part with
  | [] => acc
  | c :: rest =>
    let acc1 := acc ++ [c.toUpper]
    if rest.isEmpty then acc1
    else if hasSuffixL acc1 (upperChars part) then acc1
    else acc1 ++ lowerChars rest

/-- The last acronym segment of a segment list, together with the
segments after it. -/
def splitLastAcr : List (List Char) → Option (List Char × List (List Char))
  | [] => none
  | s :: rest =>
    match splitLastAcr rest with
    | some r => some r
    | none => if isAcronymSeg s then some (s, rest) else none

/-- The naming rule as the amended claim words it: an acronym segment
replaces everything accumulated before it with its upper-cased form, so
the result is the upper-cased last acronym segment (when one exists)
followed by the capitalization of the remaining segments. -/
def amendedGoNameChars (name : List Char) : List Char :=
  match splitLastAcr (fieldsFuncU name) with
  | none => (fieldsFuncU name).foldl capSeg []
  | some (a, rest) => rest.foldl capSeg (upperChars a)

/-- String form of `amendedGoNameChars`. -/
def amendedGoName (s : String) : String := String.mk (amendedGoNameChars s.data)

/-- The narrow (below machine-word) base names for which `needsFFIArg`
answers true (generator.go lines 504-510). -/
def narrowNames : List String :=
  ["int8_t", "uint8_t", "char", "bool", "int16_t", "uint16_t", "short",
   "int32_t", "uint32_t", "int"]

/-! # Theorems

Helper lemmas about the naming rule first, then one theorem per claim of
the specification (with its counterexample and witness where applicable). -/

/-- A list is always a suffix of itself under the `strings.HasSuffix`
model. -/
theorem hasSuffixL_self (l : List Char) : hasSuffixL l l = true := by
  simp [hasSuffixL]

/-- Membership form of the acronym test. -/
theorem acr_mem {part : List Char} (h : isAcronymSeg part = true) :
    lowerChars part ∈ acronymsList := by
  have h2 : acronymsList.elem (lowerChars part) = true := by
    simpa [isAcronymSeg, List.contains] using h
  exact List.elem_iff.mp h2

/-- Every acronym segment has at least two characters (the table's
shortest entries are two characters long). -/
theorem acr_len {part : List Char} (h : isAcronymSeg part = true) :
    2 ≤ part.length := by
  have hl : (lowerChars part).length = part.length := by simp [lowerChars]
  have hm := acr_mem h
  simp [acronymsList] at hm
  rcases hm with h|h|h|h|h|h|h|h|h|h|h <;> rw [h] at hl <;> simp at hl <;> omega

/-- On an acronym segment, the builder step of `toGoName` discards the
accumulated output entirely: the `result.Reset()` of generator.go line
462 makes the outcome independent of everything emitted before. -/
theorem processPart_acronym {part : List Char} (h : isAcronymSeg part = true)
    (acc : List Char) : processPart acc part = upperChars part := by
  have hlen := acr_len h
  match part, hlen with
  | c :: d :: rest2, _ =>
    simp [processPart, h, hasSuffixL_self]

/-- On a non-acronym segment, the builder step of `toGoName` is exactly
the guarded capitalization `capSeg`. -/
theorem processPart_not_acronym {part : List Char} (h : isAcronymSeg part = false)
    (acc : List Char) : processPart acc part = capSeg acc part := by
  cases part with
  | nil => rfl
  | cons c rest =>
    cases rest with
    | nil => rfl
    | cons d rest2 =>
      by_cases hs : hasSuffixL (acc ++ [c.toUpper]) (upperChars (c :: d :: rest2)) = true
      · simp [processPart, capSeg, h, hs]
      · simp only [Bool.not_eq_true] at hs
        simp [processPart, capSeg, h, hs]

/-- Folding the builder step over a segment list equals restarting from
the upper-cased last acronym segment (when one exists) and capitalizing
the segments after it. -/
theorem foldl_processPart_eq (segs : List (List Char)) :
    ∀ acc, segs.foldl processPart acc =
      match splitLastAcr segs with
      | none => segs.foldl capSeg acc
      | some (a, rest) => rest.foldl capSeg (upperChars a) := by
  induction segs with
  | nil => intro acc; rfl
  | cons s rest ih =>
    intro acc
    simp only [List.foldl_cons]
    rw [ih (processPart acc s)]
    cases hsplit : splitLastAcr rest with
    | some r =>
      simp only [splitLastAcr, hsplit]
    | none =>
      by_cases hacr : isAcronymSeg s = true
      · simp only [splitLastAcr, hsplit, hacr, if_pos]
        rw [processPart_acronym hacr]
      · have hacr2 : isAcronymSeg s = false := by
          simpa using hacr
        simp only [splitLastAcr, hsplit, hacr2, Bool.false_eq_true, if_neg,
          List.foldl_cons]
        rw [processPart_not_acronym hacr2]
        simp

/-- Claim C1, counterexample: for the non-pointer type name
`mysterytype`, known to no struct or enum of an empty header and to no
primitive, type mapping does not fail - it silently produces the target
type `Mysterytype` and the opaque address descriptor, refuting the
claimed UnknownType error. -/
theorem unknownType_silent_default_cex :
    cTypeToGoType { Name := "mysterytype" } emptyHeader = "Mysterytype" ∧
    cTypeToFFIType { Name := "mysterytype" } emptyHeader = "&ffi.TypePointer" := by
  exact ⟨by decide, by decide⟩

/-- Claim C1 (amended): for every non-pointer C type whose base name
matches no primitive in the fixed table, no known struct, and no known
enum, type mapping silently defaults - the target type is the
capitalized base name and the foreign descriptor is the opaque address
descriptor; no UnknownType error exists. -/
theorem unknownType_silent_default (ct : CType) (header : Header)
    (hp : ct.IsPointer = false)
    (hn : ct.Name ∉ primitiveNames)
    (hs : ∀ s ∈ header.Structs, s.Name ≠ ct.Name)
    (he : ∀ e ∈ header.Enums, e.Name ≠ ct.Name) :
    cTypeToGoType ct header = toGoName ct.Name ∧
    cTypeToFFIType ct header = "&ffi.TypePointer" := by
  simp only [primitiveNames, List.mem_cons, List.mem_singleton, not_or] at hn
  obtain ⟨n1, n2, n3, n4, n5, n6, n7, n8, n9, n10, n11, n12, n13,
    n14, n15, n16, n17, -⟩ := hn
  have hfs : header.Structs.find? (fun s => s.Name == ct.Name) = none :=
    List.find?_eq_none.mpr (fun s hsm => by simp [hs s hsm])
  have hfs2 : header.Structs.find? (fun s => s.Name == ct.Name && !s.IsOpaque) = none :=
    List.find?_eq_none.mpr (fun s hsm => by simp [hs s hsm])
  have hfe : header.Enums.find? (fun e => e.Name == ct.Name) = none :=
    List.find?_eq_none.mpr (fun e hem => by simp [he e hem])
  constructor
  · simp only [cTypeToGoType, hp, Bool.false_and, Bool.false_eq_true, if_false,
      beq_eq_false_iff_ne.mpr n1, beq_eq_false_iff_ne.mpr n2,
      beq_eq_false_iff_ne.mpr n3, beq_eq_false_iff_ne.mpr n4,
      beq_eq_false_iff_ne.mpr n5, beq_eq_false_iff_ne.mpr n6,
      beq_eq_false_iff_ne.mpr n7, beq_eq_false_iff_ne.mpr n8,
      beq_eq_false_iff_ne.mpr n9, beq_eq_false_iff_ne.mpr n10,
      beq_eq_false_iff_ne.mpr n11, beq_eq_false_iff_ne.mpr n12,
      beq_eq_false_iff_ne.mpr n13, beq_eq_false_iff_ne.mpr n14,
      beq_eq_false_iff_ne.mpr n15, beq_eq_false_iff_ne.mpr n16,
      beq_eq_false_iff_ne.mpr n17, hfs, hfe]
  · simp only [cTypeToFFIType, hp, Bool.false_eq_true, if_false,
      beq_eq_false_iff_ne.mpr n1, beq_eq_false_iff_ne.mpr n2,
      beq_eq_false_iff_ne.mpr n3, beq_eq_false_iff_ne.mpr n4,
      beq_eq_false_iff_ne.mpr n5, beq_eq_false_iff_ne.mpr n6,
      beq_eq_false_iff_ne.mpr n7, beq_eq_false_iff_ne.mpr n8,
      beq_eq_false_iff_ne.mpr n9, beq_eq_false_iff_ne.mpr n10,
      beq_eq_false_iff_ne.mpr n11, beq_eq_false_iff_ne.mpr n12,
      beq_eq_false_iff_ne.mpr n13, beq_eq_false_iff_ne.mpr n14,
      beq_eq_false_iff_ne.mpr n15, beq_eq_false_iff_ne.mpr n16,
      beq_eq_false_iff_ne.mpr n17, hfs2]

/-- Claim C1, witness: the amended theorem applied to the unknown type
name `mysterytype` against the empty header. -/
theorem unknownType_silent_default_witness :
    cTypeToGoType { Name := "mysterytype" } emptyHeader = toGoName "mysterytype" ∧
    cTypeToFFIType { Name := "mysterytype" } emptyHeader = "&ffi.TypePointer" :=
  unknownType_silent_default { Name := "mysterytype" } emptyHeader rfl (by decide)
    (by simp [emptyHeader]) (by simp [emptyHeader])

/-- Claim C2: for the member list `[A, B=5, C]` the emitted Go const
block denotes A=0, B=5, C=5 - the bare third spec repeats the previous
expression `5` instead of continuing with 6 - while the C enum semantics
the claim states give A=0, B=5, C=6.  This exhibits the code bug at the
claim's own test vector. -/
theorem enum_bare_member_repeats_value :
    evalConstBlock (enumConstEntries
      { Name := "color",
        Values := [{ Name := "A" }, { Name := "B", Value := "5" }, { Name := "C" }] })
      = [("A", 0), ("B", 5), ("C", 5)] ∧
    resolveCEnum [{ Name := "A" }, { Name := "B", Value := "5" }, { Name := "C" }]
      = [("A", 0), ("B", 5), ("C", 6)] := by
  exact ⟨by decide, by decide⟩

/-- Claim C3, counterexample: on `user_id` the source rule yields `ID`,
not the `UserID` that the claim's segment-preserving rule produces - the
acronym branch resets the builder and discards the `user` segment. -/
theorem goName_acronym_resets_cex :
    toGoName "user_id" = "ID" ∧ claimGoName "user_id" = "UserID" ∧
    toGoName "user_id" ≠ claimGoName "user_id" := by
  exact ⟨by decide, by decide, by decide⟩

/-- Claim C3 (amended): for every C snake_case name, the derived
identifier is a pure deterministic function of the name, equal to the
amended rule: the segments before the last acronym segment are
discarded, that acronym is emitted fully upper-cased, and each later
(non-acronym) segment is appended with its first letter upper-cased and
the rest lower-cased - except that the remainder of a segment is dropped
when the output already ends with that whole segment upper-cased. -/
theorem goName_eq_amended_rule (name : String) :
    toGoName name = amendedGoName name := by
  unfold toGoName amendedGoName
  congr 1
  unfold toGoNameChars amendedGoNameChars
  by_cases h : name.data = []
  · simp [h, fieldsFuncU]
    rfl
  · simp only [h, if_neg, if_false]
    exact foldl_processPart_eq (fieldsFuncU name.data) []

/-- Claim C4, counterexample: a pointer to the known non-opaque struct
`CalcConfig` maps to the typed pointer `*Calcconfig`, not to the generic
opaque address type `uintptr` the claim states. -/
theorem structPointer_goType_cex :
    cTypeToGoType { Name := "CalcConfig", IsPointer := true }
      { Structs := [{ Name := "CalcConfig" }] } = "*Calcconfig" ∧
    ("*Calcconfig" : String) ≠ "uintptr" := by
  exact ⟨by decide, by decide⟩

/-- Claim C4 (amended): for every pointer type that is not a string
pointer, a pointer whose base name matches a known non-opaque struct
maps to the typed pointer `*` + struct name, a pointer matching no such
struct maps to the generic `uintptr`, and the foreign descriptor is the
opaque address descriptor in both cases. -/
theorem pointer_mapping_amended (ct : CType) (header : Header)
    (hp : ct.IsPointer = true)
    (hchar : ct.Name ≠ "char" ∧ ct.Name ≠ "char *") :
    ((∃ s ∈ header.Structs, s.Name = ct.Name ∧ s.IsOpaque = false) →
        cTypeToGoType ct header = "*" ++ toGoName ct.Name) ∧
    ((∀ s ∈ header.Structs, s.Name = ct.Name → s.IsOpaque = true) →
        cTypeToGoType ct header = "uintptr") ∧
    cTypeToFFIType ct header = "&ffi.TypePointer" := by
  obtain ⟨hc1, hc2⟩ := hchar
  refine ⟨?_, ?_, by simp [cTypeToFFIType, hp]⟩
  · rintro ⟨s, hsm, hsn, hso⟩
    have hsome : (header.Structs.find? (fun s => s.Name == ct.Name && !s.IsOpaque)).isSome := by
      rw [List.find?_isSome]
      exact ⟨s, hsm, by simp [hsn, hso]⟩
    obtain ⟨v, hv⟩ := Option.isSome_iff_exists.mp hsome
    simp [cTypeToGoType, hp, beq_eq_false_iff_ne.mpr hc1,
      beq_eq_false_iff_ne.mpr hc2, hv]
  · intro hall
    have hnone : header.Structs.find? (fun s => s.Name == ct.Name && !s.IsOpaque) = none := by
      refine List.find?_eq_none.mpr (fun s hsm => ?_)
      by_cases hn : s.Name = ct.Name
      · simp [hall s hsm hn]
      · simp [hn]
    simp [cTypeToGoType, hp, beq_eq_false_iff_ne.mpr hc1,
      beq_eq_false_iff_ne.mpr hc2, hnone]

/-- Claim C4, witness: the amended theorem applied to a pointer to the
known non-opaque struct `CalcConfig` and to a raw `int` pointer. -/
theorem pointer_mapping_amended_witness :
    cTypeToGoType { Name := "CalcConfig", IsPointer := true }
        { Structs := [{ Name := "CalcConfig" }] } = "*" ++ toGoName "CalcConfig" ∧
    cTypeToGoType { Name := "int", IsPointer := true } emptyHeader = "uintptr" ∧
    cTypeToFFIType { Name := "CalcConfig", IsPointer := true }
        { Structs := [{ Name := "CalcConfig" }] } = "&ffi.TypePointer" := by
  have h1 := pointer_mapping_amended { Name := "CalcConfig", IsPointer := true }
    { Structs := [{ Name := "CalcConfig" }] } rfl (by decide)
  have h2 := pointer_mapping_amended { Name := "int", IsPointer := true }
    emptyHeader rfl (by decide)
  exact ⟨h1.1 ⟨{ Name := "CalcConfig" }, by simp, rfl, rfl⟩,
    h2.2.1 (by simp [emptyHeader]), h1.2.2⟩

/-- Claim C5, counterexample: the parameter list `int a, ...` of a
variadic declaration parses without any error into the fixed parameter
plus a variadic flag, and the synthesized wrapper for the flagged
function is identical to the wrapper of the same function without the
variadic part - the binding is synthesized with the variadic part
silently dropped, not rejected. -/
theorem variadic_not_rejected_cex :
    parseParams "int a, ..." =
      ([{ Name := "a", Ty := { Name := "int" } }], true) ∧
    generateFunctionWrapper
        { Name := "sum", ReturnType := { Name := "int" },
          Params := [{ Name := "a", Ty := { Name := "int" } }], IsVariadic := true }
        emptyHeader
      = generateFunctionWrapper
        { Name := "sum", ReturnType := { Name := "int" },
          Params := [{ Name := "a", Ty := { Name := "int" } }], IsVariadic := false }
        emptyHeader := by
  exact ⟨by decide, rfl⟩

/-- Claim C5 (amended): the core never rejects a variadic declaration -
no UnsupportedConstruct error exists; the parser drops the `...` token
while recording the flag, and binding synthesis never consults the flag,
producing the same wrapper as for the declaration without the variadic
part. -/
theorem variadic_flag_ignored (fn : Function) (header : Header) :
    generateFunctionWrapper { fn with IsVariadic := true } header =
    generateFunctionWrapper { fn with IsVariadic := false } header := rfl

/-- Claim C6: for every function whose return type is a narrow integral
or boolean base name below the machine word, the wrapper declares a
word-sized `ffi.Arg` result slot, passes its address to the call, and
narrows afterwards: an 8-bit unsigned return is truncated by `uint8(...)`
whose value is the low byte of the slot (for every slot value, hence for
every low byte 0-255 including 255), and a boolean return goes through
`result.Bool()`, which truncates to the lowest 8 bits and tests
non-zero. -/
theorem narrow_return_truncation (fn : Function) (header : Header)
    (hp : fn.ReturnType.IsPointer = false)
    (hn : fn.ReturnType.Name ∈ narrowNames) :
    needsFFIArg fn.ReturnType = true ∧
    resultDecl fn header = "\tvar result ffi.Arg\n" ∧
    resultCallArg fn = "unsafe.Pointer(&result)" ∧
    (fn.ReturnType.Name = "uint8_t" → returnStmt fn header = "\treturn uint8(result)\n") ∧
    (fn.ReturnType.Name = "bool" → returnStmt fn header = "\treturn result.Bool()\n") ∧
    (∀ slot : Nat, goConvUint8 slot = slot % 256 ∧ goConvUint8 slot < 256) ∧
    (∀ slot : Nat, ffiArgBool slot = true ↔ slot % 256 ≠ 0) := by
  obtain ⟨fnm, rt, ps, iv⟩ := fn
  obtain ⟨rnm, rptr, rc, ru, ra, ras⟩ := rt
  simp only at hp hn
  subst hp
  simp only [narrowNames, List.mem_cons, List.mem_singleton,
    List.not_mem_nil, or_false] at hn
  rcases hn with h|h|h|h|h|h|h|h|h|h <;> subst h <;>
    exact ⟨rfl, rfl, rfl,
      fun hh => (by first | rfl | (exfalso; simp at hh)),
      fun hh => (by first | rfl | (exfalso; simp at hh)),
      fun slot => ⟨rfl, Nat.mod_lt _ (by decide)⟩,
      fun slot => by simp [ffiArgBool, bne_iff_ne]⟩

/-- Claim C6, witness: the theorem applied to a function returning
`uint8_t`, including the truncation of the slot value 511 to its low
byte 255. -/
theorem narrow_return_truncation_witness :
    needsFFIArg ({ Name := "uint8_t" } : CType) = true ∧
    resultDecl { Name := "calc_flag", ReturnType := { Name := "uint8_t" } }
      emptyHeader = "\tvar result ffi.Arg\n" ∧
    returnStmt { Name := "calc_flag", ReturnType := { Name := "uint8_t" } }
      emptyHeader = "\treturn uint8(result)\n" ∧
    goConvUint8 511 = 255 := by
  have h := narrow_return_truncation
    { Name := "calc_flag", ReturnType := { Name := "uint8_t" } }
    emptyHeader rfl (by decide)
  exact ⟨h.1, h.2.1, h.2.2.2.1 rfl, (h.2.2.2.2.2.1 511).1.trans (by decide)⟩

/-- Claim C7: for every function parameter, the call argument follows
the category-keyed policy of the wrapper generator - a string parameter
is first converted by an emitted `unix.BytePtrFromString` line to a
null-terminated byte buffer and the buffer pointer's address is passed,
a struct-by-value parameter is passed as the direct address of the
value, and every other parameter is passed as the address of the local
holding the value. -/
theorem param_marshaling_policy (header : Header) (fn : Function)
    (p : FunctionParam) (hmem : p ∈ fn.Params) :
    (isStringType p.Ty = true →
      callArgFor header p = "unsafe.Pointer(&" ++ paramNameOf p ++ "Ptr)" ∧
      ("\t" ++ paramNameOf p ++ "Ptr, _ := unix.BytePtrFromString("
        ++ paramNameOf p ++ ")\n") ∈ stringConvLines fn) ∧
    (isStringType p.Ty = false → isStructByValue p.Ty header = true →
      callArgFor header p = "&" ++ paramNameOf p) ∧
    (isStringType p.Ty = false → isStructByValue p.Ty header = false →
      callArgFor header p = "unsafe.Pointer(&" ++ paramNameOf p ++ ")") := by
  refine ⟨fun hs => ⟨?_, ?_⟩, fun hs hv => ?_, fun hs hv => ?_⟩
  · simp [callArgFor, hs]
  · simp only [stringConvLines, List.mem_filterMap]
    exact ⟨p, hmem, by simp [hs]⟩
  · simp [callArgFor, hs, hv]
  · simp [callArgFor, hs, hv]

/-- Claim C7, witness: the theorem applied to a string parameter, a
struct-by-value parameter and a scalar parameter of one function. -/
theorem param_marshaling_policy_witness :
    callArgFor { Structs := [{ Name := "CalcConfig" }] }
        { Name := "buf", Ty := { Name := "char", IsPointer := true } }
      = "unsafe.Pointer(&" ++ paramNameOf
          { Name := "buf", Ty := { Name := "char", IsPointer := true } } ++ "Ptr)" ∧
    callArgFor { Structs := [{ Name := "CalcConfig" }] }
        { Name := "config", Ty := { Name := "CalcConfig" } }
      = "&" ++ paramNameOf { Name := "config", Ty := { Name := "CalcConfig" } } ∧
    callArgFor { Structs := [{ Name := "CalcConfig" }] }
        { Name := "n", Ty := { Name := "int32_t" } }
      = "unsafe.Pointer(&" ++ paramNameOf { Name := "n", Ty := { Name := "int32_t" } } ++ ")" ∧
    ("\t" ++ paramNameOf { Name := "buf", Ty := { Name := "char", IsPointer := true } }
      ++ "Ptr, _ := unix.BytePtrFromString("
      ++ paramNameOf { Name := "buf", Ty := { Name := "char", IsPointer := true } }
      ++ ")\n") ∈ stringConvLines
        { Name := "f", ReturnType := { Name := "void" },
          Params := [{ Name := "buf", Ty := { Name := "char", IsPointer := true } },
                     { Name := "config", Ty := { Name := "CalcConfig" } },
                     { Name := "n", Ty := { Name := "int32_t" } }] } := by
  have h1 := param_marshaling_policy { Structs := [{ Name := "CalcConfig" }] }
    { Name := "f", ReturnType := { Name := "void" },
      Params := [{ Name := "buf", Ty := { Name := "char", IsPointer := true } },
                 { Name := "config", Ty := { Name := "CalcConfig" } },
                 { Name := "n", Ty := { Name := "int32_t" } }] }
    { Name := "buf", Ty := { Name := "char", IsPointer := true } } (by simp)
  have h2 := param_marshaling_policy { Structs := [{ Name := "CalcConfig" }] }
    { Name := "f", ReturnType := { Name := "void" },
      Params := [{ Name := "buf", Ty := { Name := "char", IsPointer := true } },
                 { Name := "config", Ty := { Name := "CalcConfig" } },
                 { Name := "n", Ty := { Name := "int32_t" } }] }
    { Name := "config", Ty := { Name := "CalcConfig" } } (by simp)
  have h3 := param_marshaling_policy { Structs := [{ Name := "CalcConfig" }] }
    { Name := "f", ReturnType := { Name := "void" },
      Params := [{ Name := "buf", Ty := { Name := "char", IsPointer := true } },
                 { Name := "config", Ty := { Name := "CalcConfig" } },
                 { Name := "n", Ty := { Name := "int32_t" } }] }
    { Name := "n", Ty := { Name := "int32_t" } } (by simp)
  exact ⟨(h1.1 rfl).1, h2.2.1 rfl (by decide), h3.2.2 rfl (by decide), (h1.1 rfl).2⟩

/-- Claim C8: for every function returning a string pointer, the wrapper
declares a raw `*byte` slot, passes its address to the call, and emits
the nil-sentinel epilogue that returns the empty string on a null
address; in the runtime model, a null received address yields the empty
string for every possible dereference behavior, so the null address is
never dereferenced. -/
theorem string_return_null_safety (fn : Function) (header : Header)
    (hsr : isStringReturnType fn.ReturnType = true) :
    resultDecl fn header = "\tvar resultPtr *byte\n" ∧
    resultCallArg fn = "unsafe.Pointer(&resultPtr)" ∧
    returnStmt fn header =
      "\tif resultPtr == nil \x7b\n\t\treturn \"\"\n\t\x7d\n\treturn unix.BytePtrToString(resultPtr)\n" ∧
    (∀ deref : Nat → String, stringReturnSem 0 deref = "") := by
  obtain ⟨hptr, hname⟩ : fn.ReturnType.IsPointer = true ∧ fn.ReturnType.Name = "char" := by
    have h2 := hsr
    simp only [isStringReturnType, Bool.and_eq_true, beq_iff_eq] at h2
    exact h2
  refine ⟨?_, ?_, ?_, fun d => rfl⟩
  · simp [resultDecl, needsFFIArg, isStringReturnType, hname, hptr]
  · simp [resultCallArg, isStringReturnType, hname, hptr]
  · simp [returnStmt, needsFFIArg, isStringReturnType, hname, hptr]

/-- Claim C8, witness: the theorem applied to the `const char*` returning
function `calc_get_version`, and the null-sentinel case evaluated under
an arbitrary dereference function. -/
theorem string_return_null_safety_witness :
    resultDecl
      { Name := "calc_get_version",
        ReturnType := { Name := "char", IsPointer := true, IsConst := true } }
      emptyHeader = "\tvar resultPtr *byte\n" ∧
    returnStmt
      { Name := "calc_get_version",
        ReturnType := { Name := "char", IsPointer := true, IsConst := true } }
      emptyHeader =
      "\tif resultPtr == nil \x7b\n\t\treturn \"\"\n\t\x7d\n\treturn unix.BytePtrToString(resultPtr)\n" ∧
    stringReturnSem 0 (fun _ => "garbage") = "" := by
  have h := string_return_null_safety
    { Name := "calc_get_version",
      ReturnType := { Name := "char", IsPointer := true, IsConst := true } }
    emptyHeader rfl
  exact ⟨h.1, h.2.2.1, h.2.2.2 _⟩

/-- Claim C9: a function declared with an empty parameter list or the
single literal parameter `void` is recorded with zero parameters (and no
variadic flag), its signature registration passes exactly the return
descriptor, and in general the registered descriptor list is the return
descriptor first followed by the parameter descriptors in order. -/
theorem void_params_collapse (name retType paramsStr : String) (header : Header)
    (hv : goTrim paramsStr = "void" ∨ goTrim paramsStr = "") :
    (mkFunction name retType paramsStr).Params = [] ∧
    (mkFunction name retType paramsStr).IsVariadic = false ∧
    prepArgs (mkFunction name retType paramsStr) header =
      [cTypeToFFIType (parseCType (goTrim retType)) header] ∧
    (∀ fn : Function, prepArgs fn header =
      cTypeToFFIType fn.ReturnType header
        :: fn.Params.map fun p => cTypeToFFIType p.Ty header) := by
  have hcond : (goTrim paramsStr == "void" || goTrim paramsStr == "") = true := by
    rcases hv with h | h <;> simp [h]
  have hgen : ∀ fn : Function, prepArgs fn header =
      cTypeToFFIType fn.ReturnType header
        :: fn.Params.map fun p => cTypeToFFIType p.Ty header := by
    intro fn
    unfold prepArgs
    by_cases he : (fn.Params.map fun p => cTypeToFFIType p.Ty header).isEmpty = true
    · rw [List.isEmpty_iff] at he
      simp [he]
    · simp only [Bool.not_eq_true] at he
      simp [he]
  refine ⟨?_, ?_, ?_, hgen⟩
  · simp [mkFunction, hcond]
  · simp [mkFunction, hcond]
  · rw [hgen]
    simp [mkFunction, hcond]

/-- Claim C9, witness: the theorem applied to a declaration with the
literal parameter list ` void ` and to one with an empty parameter
list. -/
theorem void_params_collapse_witness :
    (mkFunction "calc_get_version" "const char*" " void ").Params = [] ∧
    (mkFunction "calc_version_count" "int64_t" "").Params = [] ∧
    prepArgs (mkFunction "calc_get_version" "const char*" " void ") emptyHeader
      = [cTypeToFFIType (parseCType (goTrim "const char*")) emptyHeader] ∧
    prepArgs (mkFunction "calc_version_count" "int64_t" "") emptyHeader
      = [cTypeToFFIType (parseCType (goTrim "int64_t")) emptyHeader] := by
  have h1 := void_params_collapse "calc_get_version" "const char*" " void "
    emptyHeader (Or.inl (by decide))
  have h2 := void_params_collapse "calc_version_count" "int64_t" ""
    emptyHeader (Or.inr (by decide))
  exact ⟨h1.1, h2.1, h1.2.2.1, h2.2.2.1⟩

/-- Claim C10: for every input string and every behavior of the
(abstracted) regexp engine, `Parse` returns a header together with a nil
error - there is no failing path - and the extracted functions come only
from the function-pattern match list (at most one per match), so
declarations matching no pattern are silently omitted. -/
theorem parse_never_fails (rx : RegexFns) (content : String) :
    (Parse rx content).2 = none ∧
    (Parse rx content).1.Functions.length ≤
      (rx.funcMatches (normalizeWhitespace rx (removeComments rx content))).length := by
  refine ⟨rfl, ?_⟩
  show (parseFunctionsH rx _ _).Functions.length ≤ _
  simp only [parseFunctionsH, parseEnumsH, parseStructsH, parseTypeDefsH,
    List.nil_append]
  exact List.length_filterMap_le _ _

end FfiConverter
